import Mathlib

/-!
Verification of the reply-modality decision engine of the `clawdbot-feishu`
plugin (`src/tts.ts`, the stateful priority-chain variant).

The TypeScript module is shallowly embedded below.  Ambient effects are made
explicit:

* `Date.now()` and the various clock readings (`getDay`, `getHours`,
  the timezone-converted schedule time) are packaged into a `Clock` value
  passed to each function that reads the clock;
* the persisted state file is passed in as a `VoiceState` value, and the
  functions that write it return the written state explicitly;
* JavaScript truthiness on `number | null` fields (`modeExpiresAt`,
  `lastInteractionAt`, `durationMs`) is modelled by `truthyNum` /
  `truthyDur` (a `null` or a numeric `0` is falsy);
* the regexes of `mustUseText` are translated into character-level scanners
  over `List Char` with the same matching semantics.

Timestamps are `Int` milliseconds; text is `List Char` (one entry per code
point).
-/

namespace Feishu

/-- The `"auto" | "voice" | "text"` union (the `currentMode` field). -/
inductive Mode
  | auto
  | voice
  | text
deriving DecidableEq, Repr

/-- The `"voice" | "text"` union (modalities used for preferences and corrections). -/
inductive IOMode
  | voice
  | text
deriving DecidableEq, Repr

/-- One entry of `VoiceState.corrections`. -/
structure Correction where
  timestamp : Int
  dayOfWeek : Nat
  hour : Nat
  correctedTo : IOMode
deriving DecidableEq, Repr

/-- The persisted `VoiceState` record (`state.json`). -/
structure VoiceState where
  currentMode : Mode
  modeSetAt : Option Int
  modeExpiresAt : Option Int
  lastUserInputMode : Option IOMode
  lastInteractionAt : Option Int
  corrections : List Correction
deriving DecidableEq, Repr

/-- One entry of `SkillConfig.models`: model name and speech-rate scale.
`lengthScale` is stored in hundredths (65 stands for 0.65) since no
arithmetic is ever performed on it. -/
structure ModelConfig where
  name : String
  lengthScale : Int
deriving DecidableEq, Repr

/-- The two voice models (`models.zh` and `models."zh-en"`). -/
structure Models where
  zh : ModelConfig
  zhEn : ModelConfig
deriving DecidableEq, Repr

/-- The `rules.forceText` section. -/
structure ForceTextRules where
  maxChars : Nat
  codeBlocks : Bool
  tables : Bool
  techKeywords : Bool
deriving DecidableEq, Repr

/-- The `rules.schedule` section.  `weekday` keeps the insertion order of the JSON object
(`Object.entries` enumerates string keys in insertion order). -/
structure ScheduleConfig where
  timezone : String
  weekday : List (String × IOMode)
  weekend : IOMode
deriving DecidableEq, Repr

/-- The `rules.contextKeywords` section. -/
structure ContextKeywords where
  voice : List String
  text : List String
deriving DecidableEq, Repr

/-- The `rules.adaptiveRules` section. -/
structure AdaptiveRules where
  followUserInputMode : Bool
  longIntervalThresholdMs : Int
  longIntervalPreference : IOMode
deriving DecidableEq, Repr

/-- The `SkillConfig.rules` object. -/
structure Rules where
  forceText : ForceTextRules
  schedule : ScheduleConfig
  contextKeywords : ContextKeywords
  adaptiveRules : AdaptiveRules
deriving DecidableEq, Repr

/-- The full `SkillConfig` object. -/
structure SkillConfig where
  models : Models
  rules : Rules
deriving DecidableEq, Repr

/-- Translation of `DEFAULT_CONFIG` from the source. -/
def DEFAULT_CONFIG : SkillConfig :=
  { models :=
      { zh := { name := "vits-zh-hf-fanchen-C", lengthScale := 65 }
        zhEn := { name := "vits-melo-tts-zh_en", lengthScale := 80 } }
    rules :=
      { forceText :=
          { maxChars := 150, codeBlocks := true, tables := true, techKeywords := true }
        schedule :=
          { timezone := "Asia/Shanghai"
            weekday :=
              [ ("07:00-08:30", IOMode.voice)
              , ("08:30-12:00", IOMode.text)
              , ("12:00-13:00", IOMode.voice)
              , ("13:00-17:30", IOMode.text)
              , ("17:30-19:00", IOMode.voice)
              , ("19:00-07:00", IOMode.voice) ]
            weekend := IOMode.voice }
        contextKeywords :=
          { voice := ["开车", "在路上", "出门", "走路", "地铁", "公交"]
            text := ["到了", "到公司", "开会", "忙", "在办公室"] }
        adaptiveRules :=
          { followUserInputMode := true
            longIntervalThresholdMs := 300000
            longIntervalPreference := IOMode.voice } } }

/-- Translation of `DEFAULT_STATE` from the source. -/
def DEFAULT_STATE : VoiceState :=
  { currentMode := Mode.auto
    modeSetAt := none
    modeExpiresAt := none
    lastUserInputMode := none
    lastInteractionAt := none
    corrections := [] }

/-- JS truthiness of a `number | null` value: `null` and `0` are falsy. -/
def truthyNum : Option Int → Bool
  | none => false
  | some t => decide (t ≠ 0)

/-- The backtick character (code point 96). -/
def tick : Char := Char.ofNat 96

/-- Searches for an occurrence of three consecutive backticks and returns the
text after it (the leftmost match, as a regex engine would find it). -/
def afterFence : List Char → Option (List Char)
  | a :: b :: c :: rest =>
      if a = tick ∧ b = tick ∧ c = tick then some rest
      else afterFence (b :: c :: rest)
  | _ => none

/-- Test of `/` ++ "```[\\s\\S]*```" ++ `/`: the text contains two
non-overlapping triple-backtick fences. -/
def hasCodeFence (l : List Char) : Bool :=
  match afterFence l with
  | some rest => (afterFence rest).isSome
  | none => false

/-- Counts the matches of the inline-code regex (backtick, one or more
non-backtick characters, backtick) exactly as `String.match` with the `g`
flag does: scanning left to right, an opening backtick immediately followed
by another backtick fails and the second backtick becomes a new candidate
opener.  `opened` records whether a candidate opening backtick is pending and
`content` whether it has collected at least one non-backtick character. -/
def countInlineCode : List Char → Bool → Bool → Nat → Nat
  | [], _, _, acc => acc
  | c :: rest, opened, content, acc =>
      if c = tick then
        if opened && content then countInlineCode rest false false (acc + 1)
        else countInlineCode rest true false acc
      else
        if opened then countInlineCode rest true true acc
        else countInlineCode rest false false acc

/-- JS line terminators, which `.` does not match: LF, CR, U+2028, U+2029. -/
def isLineTerm (c : Char) : Bool :=
  c = '\n' || c = '\r' || c.toNat = 8232 || c.toNat = 8233

/-- Test of the table regex (pipe, `.*`, pipe, `.*`, pipe): some stretch of
text free of line terminators contains at least three `|` characters.
`cnt` is the pipe count of the current stretch. -/
def hasTableRowAux : List Char → Nat → Bool
  | [], cnt => decide (cnt ≥ 3)
  | c :: rest, cnt =>
      if isLineTerm c then decide (cnt ≥ 3) || hasTableRowAux rest 0
      else hasTableRowAux rest (cnt + if c = '|' then 1 else 0)

/-- Test of the markdown-table regex on a whole text. -/
def hasTableRow (l : List Char) : Bool := hasTableRowAux l 0

/-- The alternation of the technical-vocabulary regex, in source order. -/
def techKeywordList : List String :=
  [ "function", "const", "let", "var", "import", "export", "class"
  , "interface", "type", "async", "await", "return", "if", "else", "for"
  , "while", "npm", "git", "docker", "api", "http", "json", "xml", "sql"
  , "bash", "shell", "python", "javascript", "typescript", "node", "react"
  , "vue" ]

/-- JS `\w`: ASCII letters, digits, underscore. -/
def isWordChar (c : Char) : Bool :=
  ('a' ≤ c && c ≤ 'z') || ('A' ≤ c && c ≤ 'Z') || ('0' ≤ c && c ≤ '9') || c = '_'

/-- Case-insensitive keyword stripping: if `l` starts with `kw` up to ASCII
case, returns the remainder of `l`. -/
def stripKw : List Char → List Char → Option (List Char)
  | [], l => some l
  | _ :: _, [] => none
  | k :: ks, c :: cs => if k.toLower = c.toLower then stripKw ks cs else none

/-- Whether the head of `l` is a word character (no head counts as a word
boundary). -/
def headIsWord : List Char → Bool
  | [] => false
  | c :: _ => isWordChar c

/-- Scans every position of the text for a whole-word, case-insensitive
occurrence of a technical keyword; `prev` is the character before the
current position (`none` at the start of the text).  Every keyword begins
and ends with a word character, so the `\b(...)\b/i` regex matches exactly
when some keyword occurs with no word character adjacent on either side. -/
def techScan : Option Char → List Char → Bool
  | prev, l =>
      (techKeywordList.any fun kw =>
        (match prev with
         | none => true
         | some p => !isWordChar p) &&
        (match stripKw kw.toList l with
         | some rest => !headIsWord rest
         | none => false))
      ||
      (match l with
       | [] => false
       | c :: rest => techScan (some c) rest)

/-- Test of the technical-vocabulary regex `\b(function|const|...)\b/i`. -/
def hasTechKeyword (l : List Char) : Bool := techScan none l

/-- Translation of `mustUseText` from the source: the force-text hard rules, evaluated on
an already-loaded configuration. -/
def mustUseText (cfg : SkillConfig) (text : List Char) : Bool :=
  let rules := cfg.rules.forceText
  if rules.codeBlocks && hasCodeFence text then true
  else if rules.codeBlocks && decide (countInlineCode text false false 0 > 2) then true
  else if rules.tables && hasTableRow text then true
  else if decide (text.length > rules.maxChars) then true
  else if rules.techKeywords && hasTechKeyword text then true
  else false

/-- Translation of `String.prototype.split` with a one-character separator, over the
character list of the string (JS `"".split(x)` is `[""]`, and a trailing
separator yields a trailing empty part). -/
def splitChar (sep : Char) : List Char → List Char → List (List Char)
  | [], acc => [acc.reverse]
  | c :: rest, acc =>
      if c = sep then acc.reverse :: splitChar sep rest []
      else splitChar sep rest (c :: acc)

/-- JS `Number(...)` on the strings that appear in the `"HH:MM"` time
fields: the empty string parses to `0`, a digit string to its value,
anything else to `NaN` (modelled as `none`). -/
def jsNumber (l : List Char) : Option Nat :=
  if l.isEmpty then some 0
  else if l.all (fun c => c.isDigit) then
    some (l.foldl (fun n c => n * 10 + (c.toNat - 48)) 0)
  else none

/-- Translation of `parseTime` from the source: `"HH:MM"` to minutes since midnight.
`none` stands for the `NaN` that JS produces on a string without a colon
(the destructured minute component is `undefined`); every comparison with
`NaN` is false, which the callers below reproduce. -/
def parseTime (timeStr : List Char) : Option Nat :=
  let parts := splitChar ':' timeStr []
  match parts with
  | _ :: _ :: _ =>
      match jsNumber (parts.getD 0 []), jsNumber (parts.getD 1 []) with
      | some h, some m => some (h * 60 + m)
      | _, _ => none
  | _ => none

/-- The per-range test of the `getSchedulePreference` loop: split the key on
`"-"`, parse both endpoints, and check the half-open interval with midnight
wraparound when `start > end`.  A `NaN` endpoint never matches. -/
def rangeMatches (timeRange : String) (t : Nat) : Bool :=
  let parts := splitChar '-' timeRange.toList []
  match parseTime (parts.getD 0 []), parseTime (parts.getD 1 []) with
  | some s, some e =>
      if s > e then decide (t ≥ s) || decide (t < e)
      else decide (t ≥ s) && decide (t < e)
  | _, _ => false

/-- The `for (const [timeRange, mode] of Object.entries(schedule.weekday))`
loop: first matching range wins, `voice` if none matches. -/
def scanRanges : List (String × IOMode) → Nat → IOMode
  | [], _ => IOMode.voice
  | (timeRange, mode) :: rest, t =>
      if rangeMatches timeRange t then mode else scanRanges rest t

/-- Translation of `getSchedulePreference` from the source, with the timezone-resolved
day-of-week (`day`) and minutes-since-midnight (`currentTime`) passed in
explicitly (the source computes them from the wall clock via
`toLocaleString` in the configured timezone). -/
def getSchedulePreference (schedule : ScheduleConfig) (day currentTime : Nat) : IOMode :=
  if day = 0 || day = 6 then schedule.weekend
  else scanRanges schedule.weekday currentTime

/-- Translation of `userMessage.includes(kw)`: substring containment. -/
def containsSub : List Char → List Char → Bool
  | [], pat => pat.isEmpty
  | c :: rest, pat => pat.isPrefixOf (c :: rest) || containsSub rest pat

/-- Translation of `detectContextFromMessage` from the source: voice keywords are scanned
first, then text keywords; the first containment hit wins. -/
def detectContextFromMessage (cfg : SkillConfig) (userMessage : List Char) : Option IOMode :=
  let keywords := cfg.rules.contextKeywords
  if keywords.voice.any fun kw => containsSub userMessage kw.toList then some IOMode.voice
  else if keywords.text.any fun kw => containsSub userMessage kw.toList then some IOMode.text
  else none

/-- Translation of `getLearnedPreference` from the source, with the local-clock day-of-week
and hour passed in explicitly. -/
def getLearnedPreference (state : VoiceState) (currentDay currentHour : Nat) : Option IOMode :=
  if state.corrections.length < 3 then none
  else
    let relevant := state.corrections.filter fun c =>
      decide (c.dayOfWeek = currentDay) &&
      decide (((c.hour : Int) - (currentHour : Int)).natAbs ≤ 2)
    if relevant.length ≥ 2 then
      let recent := relevant.drop (relevant.length - 3)
      let voiceCount := (recent.filter fun c => decide (c.correctedTo = IOMode.voice)).length
      if voiceCount ≥ 2 then some IOMode.voice
      else if voiceCount = 0 then some IOMode.text
      else none
    else none

/-- The clock readings a single call observes: `Date.now()` (`now`, ms),
the local `getDay()`/`getHours()` used by `getLearnedPreference`
(`day`, `hour`), and the timezone-converted day and minutes-since-midnight
used by `getSchedulePreference` (`tzDay`, `tzMinutes`). -/
structure Clock where
  now : Int
  day : Nat
  hour : Nat
  tzDay : Nat
  tzMinutes : Nat
deriving DecidableEq, Repr

/-- Translation of `setTemporaryMode` from the source, acting on the loaded state and
returning the state it persists.  `durationMs ? Date.now() + durationMs :
null` makes a missing or zero duration produce a `null` expiry. -/
def setTemporaryMode (state : VoiceState) (mode : Mode) (now : Int)
    (durationMs : Option Nat) : VoiceState :=
  { state with
    currentMode := mode
    modeSetAt := some now
    modeExpiresAt :=
      match durationMs with
      | some d => if d ≠ 0 then some (now + (d : Int)) else none
      | none => none }

/-- Translation of `updateInteraction` from the source: stamps `lastInteractionAt` and
optionally `lastUserInputMode`, and persists. -/
def updateInteraction (state : VoiceState) (now : Int)
    (userInputMode : Option IOMode) : VoiceState :=
  { state with
    lastInteractionAt := some now
    lastUserInputMode :=
      match userInputMode with
      | some m => some m
      | none => state.lastUserInputMode }

/-- Translation of `recordCorrection` from the source: append the new entry, then keep only
the last 50 (`slice(-50)`), and persist. -/
def recordCorrection (state : VoiceState) (now : Int) (day hour : Nat)
    (correctedTo : IOMode) : VoiceState :=
  let cs := state.corrections ++
    [{ timestamp := now, dayOfWeek := day, hour := hour, correctedTo := correctedTo }]
  { state with
    corrections := if cs.length > 50 then cs.drop (cs.length - 50) else cs }

/-- Translation of `if (state.modeExpiresAt && Date.now() > state.modeExpiresAt)`: the
temporary mode counts as expired only when the expiry is truthy (non-null
and nonzero) and strictly before now. -/
def modeExpired (state : VoiceState) (now : Int) : Bool :=
  truthyNum state.modeExpiresAt && decide (now > state.modeExpiresAt.getD 0)

/-- Translation of `if (userMessage)`: the user message participates only when present and
nonempty (the empty string is falsy). -/
def umTruthy : Option (List Char) → Bool
  | none => false
  | some l => !l.isEmpty

/-- The context-keyword signal exactly as step 3 of `shouldSendAsVoice`
computes it: `detectContextFromMessage` is consulted only for a truthy
user message. -/
def detectedContext (cfg : SkillConfig) (um : Option (List Char)) : Option IOMode :=
  if umTruthy um then detectContextFromMessage cfg (um.getD []) else none

/-- Steps 3-7 of `shouldSendAsVoice` (everything after the hard rules):
context keywords, mirroring the user input mode, long interval, learned
corrections, schedule fallback — a priority chain with early returns. -/
def decideAfterMode (cfg : SkillConfig) (state : VoiceState) (clk : Clock)
    (um : Option (List Char)) : Bool :=
  match detectedContext cfg um with
  | some m => decide (m = IOMode.voice)
  | none =>
      if cfg.rules.adaptiveRules.followUserInputMode && state.lastUserInputMode.isSome then
        decide (state.lastUserInputMode = some IOMode.voice)
      else if truthyNum state.lastInteractionAt &&
          decide (clk.now - state.lastInteractionAt.getD 0 >
            cfg.rules.adaptiveRules.longIntervalThresholdMs) then
        decide (cfg.rules.adaptiveRules.longIntervalPreference = IOMode.voice)
      else
        match getLearnedPreference state clk.day clk.hour with
        | some m => decide (m = IOMode.voice)
        | none =>
            decide (getSchedulePreference cfg.rules.schedule clk.tzDay clk.tzMinutes = IOMode.voice)

/-- The value a call to `shouldSendAsVoice` produces: the boolean decision,
the state on disk when the call returns, and whether the call wrote it
(`saveState` ran).  When no write happens the state on disk is the state
that was loaded. -/
structure DecideResult where
  sendVoice : Bool
  state : VoiceState
  wroteState : Bool
deriving DecidableEq, Repr

/-- Translation of `shouldSendAsVoice` from the source.  The only write it can perform is
`setTemporaryMode("auto")` when the temporary mode has expired; the
subsequent steps run on the originally loaded `state` object, whose
remaining fields `setTemporaryMode` does not touch. -/
def shouldSendAsVoice (cfg : SkillConfig) (state : VoiceState) (clk : Clock)
    (responseText : List Char) (um : Option (List Char)) : DecideResult :=
  if mustUseText cfg responseText then
    { sendVoice := false, state := state, wroteState := false }
  else if state.currentMode ≠ Mode.auto then
    if modeExpired state clk.now then
      { sendVoice := decideAfterMode cfg state clk um
        state := setTemporaryMode state Mode.auto clk.now none
        wroteState := true }
    else
      { sendVoice := decide (state.currentMode = Mode.voice)
        state := state
        wroteState := false }
  else
    { sendVoice := decideAfterMode cfg state clk um
      state := state
      wroteState := false }

/-- Rendering of a `Mode` the way a JS template literal prints it. -/
def modeToStr : Mode → String
  | Mode.auto => "auto"
  | Mode.voice => "voice"
  | Mode.text => "text"

/-- Rendering of an `IOMode` the way a JS template literal prints it. -/
def iomodeToStr : IOMode → String
  | IOMode.voice => "voice"
  | IOMode.text => "text"

/-- Translation of `Math.round(interval / 60000)`: for a real number `x`,
`Math.round x = ⌊x + 1/2⌋`, so this is `⌊(2 interval + 60000) / 120000⌋`
(floor division). -/
def jsRoundMinutes (interval : Int) : Int :=
  Int.fdiv (2 * interval + 60000) 120000

/-- The strings `explainDecision` produces on the paths after the hard
rules, mirroring `decideAfterMode` branch for branch. -/
def explainAfterMode (cfg : SkillConfig) (state : VoiceState) (clk : Clock)
    (um : Option (List Char)) : String :=
  match detectedContext cfg um with
  | some m => "从消息检测到情境：" ++ iomodeToStr m
  | none =>
      if cfg.rules.adaptiveRules.followUserInputMode && state.lastUserInputMode.isSome then
        "跟随用户输入方式：" ++ ((state.lastUserInputMode.map iomodeToStr).getD "null")
      else if truthyNum state.lastInteractionAt &&
          decide (clk.now - state.lastInteractionAt.getD 0 >
            cfg.rules.adaptiveRules.longIntervalThresholdMs) then
        "间隔较长(" ++ toString (jsRoundMinutes (clk.now - state.lastInteractionAt.getD 0))
          ++ "分钟)，可能在移动中"
      else
        match getLearnedPreference state clk.day clk.hour with
        | some m => "从历史纠正中学习：" ++ iomodeToStr m
        | none =>
            "按时间表：" ++
              iomodeToStr (getSchedulePreference cfg.rules.schedule clk.tzDay clk.tzMinutes)

/-- Translation of `explainDecision` from the source.  Note that on the expired-mode path
it returns immediately (and writes nothing), where `shouldSendAsVoice`
falls through to the later signals. -/
def explainDecision (cfg : SkillConfig) (state : VoiceState) (clk : Clock)
    (responseText : List Char) (um : Option (List Char)) : String :=
  if mustUseText cfg responseText then "内容包含代码/过长，使用文本"
  else if state.currentMode ≠ Mode.auto then
    if modeExpired state clk.now then "临时模式已过期，恢复自动"
    else "临时模式：" ++ modeToStr state.currentMode
  else explainAfterMode cfg state clk um

/-- The possible deciding branches of the `shouldSendAsVoice` chain. -/
inductive Reason
  | mustText
  | tempMode
  | context
  | followInput
  | longInterval
  | learned
  | schedule
deriving DecidableEq, Repr

/-- Which branch of the chain after the hard rules produces the decision
(mirror of `decideAfterMode`, branch for branch). -/
def reasonAfterMode (cfg : SkillConfig) (state : VoiceState) (clk : Clock)
    (um : Option (List Char)) : Reason :=
  match detectedContext cfg um with
  | some _ => Reason.context
  | none =>
      if cfg.rules.adaptiveRules.followUserInputMode && state.lastUserInputMode.isSome then
        Reason.followInput
      else if truthyNum state.lastInteractionAt &&
          decide (clk.now - state.lastInteractionAt.getD 0 >
            cfg.rules.adaptiveRules.longIntervalThresholdMs) then
        Reason.longInterval
      else
        match getLearnedPreference state clk.day clk.hour with
        | some _ => Reason.learned
        | none => Reason.schedule

/-- Which branch of `shouldSendAsVoice` produces the returned boolean
(on the expired-mode path the decision falls through, so the deciding
branch is one of the later signals). -/
def decideReason (cfg : SkillConfig) (state : VoiceState) (clk : Clock)
    (responseText : List Char) (um : Option (List Char)) : Reason :=
  if mustUseText cfg responseText then Reason.mustText
  else if state.currentMode ≠ Mode.auto then
    if modeExpired state clk.now then reasonAfterMode cfg state clk um
    else Reason.tempMode
  else reasonAfterMode cfg state clk um

/-- The string that describes a given deciding branch on given inputs (what
a trace faithful to the decision would print for that branch). -/
def describeReason (cfg : SkillConfig) (state : VoiceState) (clk : Clock)
    (um : Option (List Char)) : Reason → String
  | Reason.mustText => "内容包含代码/过长，使用文本"
  | Reason.tempMode => "临时模式：" ++ modeToStr state.currentMode
  | Reason.context =>
      "从消息检测到情境：" ++ (((detectedContext cfg um).map iomodeToStr).getD "")
  | Reason.followInput =>
      "跟随用户输入方式：" ++ ((state.lastUserInputMode.map iomodeToStr).getD "null")
  | Reason.longInterval =>
      "间隔较长(" ++ toString (jsRoundMinutes (clk.now - state.lastInteractionAt.getD 0))
        ++ "分钟)，可能在移动中"
  | Reason.learned =>
      "从历史纠正中学习：" ++
        (((getLearnedPreference state clk.day clk.hour).map iomodeToStr).getD "")
  | Reason.schedule =>
      "按时间表：" ++
        iomodeToStr (getSchedulePreference cfg.rules.schedule clk.tzDay clk.tzMinutes)

/-! ## Configuration loading and merging

The JSON document under the `config` key is modelled with every field
optional (`none` = key absent).  `loadConfig` merges with JS spreads, which
act one level deep inside each of the five merged sections: a key present
in the loaded section replaces the default value of that key wholesale. -/

/-- Partial `models.zh` / `models."zh-en"` entry as it may appear in the
loaded document. -/
structure ModelConfigP where
  name : Option String := none
  lengthScale : Option Int := none
deriving DecidableEq, Repr

/-- Partial `models` section. -/
structure ModelsP where
  zh : Option ModelConfigP := none
  zhEn : Option ModelConfigP := none
deriving DecidableEq, Repr

/-- Partial `rules.forceText` section. -/
structure ForceTextRulesP where
  maxChars : Option Nat := none
  codeBlocks : Option Bool := none
  tables : Option Bool := none
  techKeywords : Option Bool := none
deriving DecidableEq, Repr

/-- Partial `rules.schedule` section. -/
structure ScheduleConfigP where
  timezone : Option String := none
  weekday : Option (List (String × IOMode)) := none
  weekend : Option IOMode := none
deriving DecidableEq, Repr

/-- Partial `rules.contextKeywords` section. -/
structure ContextKeywordsP where
  voice : Option (List String) := none
  text : Option (List String) := none
deriving DecidableEq, Repr

/-- Partial `rules.adaptiveRules` section. -/
structure AdaptiveRulesP where
  followUserInputMode : Option Bool := none
  longIntervalThresholdMs : Option Int := none
  longIntervalPreference : Option IOMode := none
deriving DecidableEq, Repr

/-- Partial `rules` object of the loaded document. -/
structure RulesP where
  forceText : Option ForceTextRulesP := none
  schedule : Option ScheduleConfigP := none
  contextKeywords : Option ContextKeywordsP := none
  adaptiveRules : Option AdaptiveRulesP := none
deriving DecidableEq, Repr

/-- The `json.config` object of the loaded document (both sub-objects
optional, as `json.config?.models` / `json.config?.rules?...` tolerate). -/
structure ConfigDocP where
  models : Option ModelsP := none
  rules : Option RulesP := none
deriving DecidableEq, Repr

/-- A totally-populated `ModelConfig` viewed as a JS object with both keys
present (what the default contributes to a spread). -/
def ModelConfig.toPartial (m : ModelConfig) : ModelConfigP :=
  { name := some m.name, lengthScale := some m.lengthScale }

/-- The result of `loadConfig`: every section object exists, but leaves
below a section may be absent at runtime when the loaded document supplied
a partial nested object (the TS type claims them present; the JS values
need not be). -/
structure MergedConfig where
  zh : ModelConfigP
  zhEn : ModelConfigP
  maxChars : Option Nat
  codeBlocks : Option Bool
  tables : Option Bool
  techKeywords : Option Bool
  timezone : Option String
  weekday : Option (List (String × IOMode))
  weekend : Option IOMode
  ctxVoice : Option (List String)
  ctxText : Option (List String)
  followUserInputMode : Option Bool
  longIntervalThresholdMs : Option Int
  longIntervalPreference : Option IOMode
deriving DecidableEq, Repr

/-- The successful-load merge of `loadConfig`: each of the five spreads
`{ ...DEFAULT_CONFIG.section, ...json.config?.section }` keeps a default
key unless the loaded section has that key, in which case the loaded value
replaces it wholesale. -/
def mergeConfig (j : ConfigDocP) : MergedConfig :=
  let d := DEFAULT_CONFIG
  let jm := j.models.getD {}
  let jr := j.rules.getD {}
  let jf := jr.forceText.getD {}
  let js := jr.schedule.getD {}
  let jc := jr.contextKeywords.getD {}
  let ja := jr.adaptiveRules.getD {}
  { zh := jm.zh.getD d.models.zh.toPartial
    zhEn := jm.zhEn.getD d.models.zhEn.toPartial
    maxChars := some (jf.maxChars.getD d.rules.forceText.maxChars)
    codeBlocks := some (jf.codeBlocks.getD d.rules.forceText.codeBlocks)
    tables := some (jf.tables.getD d.rules.forceText.tables)
    techKeywords := some (jf.techKeywords.getD d.rules.forceText.techKeywords)
    timezone := some (js.timezone.getD d.rules.schedule.timezone)
    weekday := some (js.weekday.getD d.rules.schedule.weekday)
    weekend := some (js.weekend.getD d.rules.schedule.weekend)
    ctxVoice := some (jc.voice.getD d.rules.contextKeywords.voice)
    ctxText := some (jc.text.getD d.rules.contextKeywords.text)
    followUserInputMode :=
      some (ja.followUserInputMode.getD d.rules.adaptiveRules.followUserInputMode)
    longIntervalThresholdMs :=
      some (ja.longIntervalThresholdMs.getD d.rules.adaptiveRules.longIntervalThresholdMs)
    longIntervalPreference :=
      some (ja.longIntervalPreference.getD d.rules.adaptiveRules.longIntervalPreference) }

/-- What `loadConfig` observes of the outside world: no file, an unreadable
or unparseable file, or a parsed document. -/
inductive ConfigSource
  | missing
  | unreadable
  | parsed (j : ConfigDocP)
deriving DecidableEq, Repr

/-- Translation of `loadConfig` from the source: a missing file or any read/parse error
falls back to `DEFAULT_CONFIG`; a parsed document is merged over the
defaults with the section-level spreads. -/
def loadConfig : ConfigSource → MergedConfig
  | ConfigSource.missing => mergeConfig {}
  | ConfigSource.unreadable => mergeConfig {}
  | ConfigSource.parsed j => mergeConfig j

/-! ## Synthesis pipeline (`generateTTS`)

The three subprocess invocations are modelled by success flags in a
`TTSEnv`; `execSync` throwing on a nonzero exit is an `Except.error`.  The
file-system effect is reduced to whether the two temporary files exist. -/

/-- Outcomes of the external collaborators of one `generateTTS` call. -/
structure TTSEnv where
  ttsOk : Bool
  ffmpegOk : Bool
  probeOk : Bool
  durationMs : Int
deriving DecidableEq, Repr

/-- Which subprocess failed. -/
inductive TTSStage
  | ttsEngine
  | transcoder
  | prober
deriving DecidableEq, Repr

/-- Existence of the two temporary files of one `generateTTS` call. -/
structure Fs where
  wav : Bool
  opus : Bool
deriving DecidableEq, Repr

/-- Translation of `generateTTS` from the source: synth engine writes the WAV, the
transcoder writes the opus file, the prober reports the duration, and only
then is the WAV unlinked; each `execSync` throws out of the function on a
nonzero exit, skipping everything after it. -/
def generateTTS (env : TTSEnv) : Except TTSStage Int × Fs :=
  if !env.ttsOk then (Except.error TTSStage.ttsEngine, { wav := false, opus := false })
  else if !env.ffmpegOk then (Except.error TTSStage.transcoder, { wav := true, opus := false })
  else if !env.probeOk then (Except.error TTSStage.prober, { wav := true, opus := true })
  else (Except.ok env.durationMs, { wav := false, opus := true })

/-! ## The weighted-scoring decision model of the specification -/

/-- Modelled from the spec: the soft-scoring step of §4.3 — a running score
starting at 0 accumulating context keywords ±0.6, mirroring ±0.3, schedule
±0.2 (always evaluated), long silence ±0.15 and learned corrections ±0.25,
with `score > 0 → voice`.  Weights are in hundredths so the score is an
integer.  This definition follows the words of the specification; the
implementation in `shouldSendAsVoice` is compared against it. -/
def specSoftScore (cfg : SkillConfig) (state : VoiceState) (clk : Clock)
    (um : Option (List Char)) : Int :=
  let contextSignal : Int :=
    match detectedContext cfg um with
    | some IOMode.voice => 60
    | some IOMode.text => -60
    | none => 0
  let mirrorSignal : Int :=
    if cfg.rules.adaptiveRules.followUserInputMode then
      match state.lastUserInputMode with
      | some IOMode.voice => 30
      | some IOMode.text => -30
      | none => 0
    else 0
  let scheduleSignal : Int :=
    match getSchedulePreference cfg.rules.schedule clk.tzDay clk.tzMinutes with
    | IOMode.voice => 20
    | IOMode.text => -20
  let silenceSignal : Int :=
    match state.lastInteractionAt with
    | some t =>
        if clk.now - t > cfg.rules.adaptiveRules.longIntervalThresholdMs then
          match cfg.rules.adaptiveRules.longIntervalPreference with
          | IOMode.voice => 15
          | IOMode.text => -15
        else 0
    | none => 0
  let learnedSignal : Int :=
    match getLearnedPreference state clk.day clk.hour with
    | some IOMode.voice => 25
    | some IOMode.text => -25
    | none => 0
  contextSignal + mirrorSignal + scheduleSignal + silenceSignal + learnedSignal

/-- A sequence of `recordCorrection` calls, oldest first (each call loads
the state the previous call persisted). -/
def applyCorrections (entries : List Correction) (s : VoiceState) : VoiceState :=
  entries.foldl
    (fun st e => recordCorrection st e.timestamp e.dayOfWeek e.hour e.correctedTo) s

/-- A configuration identical to the default except that a long silence is
configured to favor text (used to separate the priority chain from the
weighted-sum model). -/
def cfgScoring : SkillConfig :=
  { DEFAULT_CONFIG with
    rules :=
      { DEFAULT_CONFIG.rules with
        adaptiveRules :=
          { followUserInputMode := true
            longIntervalThresholdMs := 300000
            longIntervalPreference := IOMode.text } } }

/-- A state in which every signal after the context keywords favors text:
the last input was text, the last interaction is long past, and the three
corrections relevant to the current hour all corrected to text. -/
def stateScoring : VoiceState :=
  { currentMode := Mode.auto
    modeSetAt := none
    modeExpiresAt := none
    lastUserInputMode := some IOMode.text
    lastInteractionAt := some 1
    corrections :=
      [ { timestamp := 10, dayOfWeek := 1, hour := 10, correctedTo := IOMode.text }
      , { timestamp := 20, dayOfWeek := 1, hour := 10, correctedTo := IOMode.text }
      , { timestamp := 30, dayOfWeek := 1, hour := 10, correctedTo := IOMode.text } ] }

/-- The clock for the scoring example: a Monday at 10:00 in the schedule
timezone (a text-preferring work slot), one million ms after the epoch. -/
def clkScoring : Clock :=
  { now := 1000000, day := 1, hour := 10, tzDay := 1, tzMinutes := 600 }

/-- A temporary voice mode whose `modeExpiresAt` is the numeric timestamp
`0`: an epoch instant, strictly in the past of any positive `now`. -/
def stateZeroExpiry : VoiceState :=
  { currentMode := Mode.voice
    modeSetAt := some 0
    modeExpiresAt := some 0
    lastUserInputMode := none
    lastInteractionAt := none
    corrections := [] }

/-- A temporary voice mode that expired at t = 500. -/
def stateExpired : VoiceState :=
  { currentMode := Mode.voice
    modeSetAt := some 100
    modeExpiresAt := some 500
    lastUserInputMode := none
    lastInteractionAt := none
    corrections := [] }

/-- A temporary voice mode that expires at t = 2000 (still live at 1000). -/
def stateLive : VoiceState :=
  { currentMode := Mode.voice
    modeSetAt := some 100
    modeExpiresAt := some 2000
    lastUserInputMode := none
    lastInteractionAt := none
    corrections := [] }

/-- A clock at t = 1000, on a Monday at 10:00 schedule time. -/
def clkMonday : Clock :=
  { now := 1000, day := 1, hour := 10, tzDay := 1, tzMinutes := 600 }

/-- A clock at t = 1000 whose schedule day is a Sunday. -/
def clkSunday : Clock :=
  { now := 1000, day := 0, hour := 10, tzDay := 0, tzMinutes := 600 }

/-- A state already holding 50 recorded corrections. -/
def stateFifty : VoiceState :=
  { DEFAULT_STATE with corrections := List.replicate 50 (Correction.mk 0 1 9 IOMode.voice) }

/-- A list of 51 correction entries to replay from an empty history. -/
def corr51 : List Correction := List.replicate 51 (Correction.mk 3 4 5 IOMode.text)

/-- A loaded document that sets only `models.zh.name`. -/
def docPartialModel : ConfigDocP :=
  { models := some { zh := some { name := some "my-model" } } }

/-- A loaded document that sets only a single weekday range of
`rules.schedule.weekday`. -/
def docPartialWeekday : ConfigDocP :=
  { rules := some { schedule := some { weekday := some [("07:00-08:30", IOMode.text)] } } }

/-! ## Theorems -/

/-- The hard-rule chain of `mustUseText` is the disjunction of its five
enabled conditions. -/
theorem mustUseText_eq_or (cfg : SkillConfig) (rt : List Char) :
    mustUseText cfg rt =
      ((cfg.rules.forceText.codeBlocks && hasCodeFence rt) ||
       (cfg.rules.forceText.codeBlocks && decide (countInlineCode rt false false 0 > 2)) ||
       (cfg.rules.forceText.tables && hasTableRow rt) ||
       decide (rt.length > cfg.rules.forceText.maxChars) ||
       (cfg.rules.forceText.techKeywords && hasTechKeyword rt)) := by
  unfold mustUseText
  simp_all [Bool.or_assoc]

/-- When `mustUseText` fires, `shouldSendAsVoice` returns text at once. -/
theorem shouldSendAsVoice_of_mustUseText (cfg : SkillConfig) (state : VoiceState)
    (clk : Clock) (rt : List Char) (um : Option (List Char))
    (h : mustUseText cfg rt = true) :
    shouldSendAsVoice cfg state clk rt um =
      { sendVoice := false, state := state, wroteState := false } := by
  unfold shouldSendAsVoice
  simp [h]

/-- C1 (confirmed): any outbound text tripping an enabled force-text rule —
a fenced code block or more than two inline code spans (with the code-block
rule enabled), a markdown table row (with the table rule enabled), length
over the configured maximum, or a technical keyword (with that rule
enabled) — makes `shouldSendAsVoice` return text, for every state, clock,
temporary mode and user message. -/
theorem forceText_rules_unconditional (cfg : SkillConfig) (state : VoiceState)
    (clk : Clock) (rt : List Char) (um : Option (List Char))
    (h : (cfg.rules.forceText.codeBlocks = true ∧ hasCodeFence rt = true) ∨
         (cfg.rules.forceText.codeBlocks = true ∧ countInlineCode rt false false 0 > 2) ∨
         (cfg.rules.forceText.tables = true ∧ hasTableRow rt = true) ∨
         (rt.length > cfg.rules.forceText.maxChars) ∨
         (cfg.rules.forceText.techKeywords = true ∧ hasTechKeyword rt = true)) :
    (shouldSendAsVoice cfg state clk rt um).sendVoice = false := by
  have hm : mustUseText cfg rt = true := by
    rw [mustUseText_eq_or]
    rcases h with ⟨a, b⟩ | ⟨a, b⟩ | ⟨a, b⟩ | a | ⟨a, b⟩ <;> simp_all
  rw [shouldSendAsVoice_of_mustUseText cfg state clk rt um hm]

/-- C1 witness: a technical keyword forces text even while a live temporary
voice mode is set. -/
theorem forceText_rules_unconditional_witness :
    (DEFAULT_CONFIG.rules.forceText.techKeywords = true ∧
      hasTechKeyword "git".toList = true) ∧
    (shouldSendAsVoice DEFAULT_CONFIG stateLive clkMonday "git".toList none).sendVoice
      = false :=
  ⟨⟨by decide, by decide⟩,
    forceText_rules_unconditional DEFAULT_CONFIG stateLive clkMonday "git".toList none
      (Or.inr (Or.inr (Or.inr (Or.inr ⟨by decide, by decide⟩))))⟩

/-- The weekday scan is a first-match search over the ranges in declaration
order, defaulting to voice. -/
theorem scanRanges_eq_find (l : List (String × IOMode)) (t : Nat) :
    scanRanges l t =
      (((l.find? fun e => rangeMatches e.1 t).map Prod.snd).getD IOMode.voice) := by
  induction l with
  | nil => rfl
  | cons e rest ih =>
      obtain ⟨timeRange, mode⟩ := e
      simp only [scanRanges, List.find?]
      cases h : rangeMatches timeRange t <;> simp [h, ih]

/-- C7 (confirmed): schedule preference resolution — on a weekend day (0 or
6) the configured weekend preference is returned; on a weekday the
configured ranges are scanned in declaration order and the first range
matching the current time (half-open `[start, end)`, wrapping past midnight
when `start > end`, as `rangeMatches` tests) supplies the preference; with
no matching range the result is voice. -/
theorem schedulePreference_resolution (sch : ScheduleConfig) (day t : Nat) :
    ((day = 0 ∨ day = 6) → getSchedulePreference sch day t = sch.weekend) ∧
    (¬(day = 0 ∨ day = 6) →
      getSchedulePreference sch day t =
        (((sch.weekday.find? fun e => rangeMatches e.1 t).map Prod.snd).getD
          IOMode.voice)) := by
  constructor
  · intro h
    unfold getSchedulePreference
    rcases h with h | h <;> simp [h]
  · intro h
    push_neg at h
    unfold getSchedulePreference
    rw [if_neg, scanRanges_eq_find]
    simp [h.1, h.2]

/-- C7 witness: on the default schedule, a Monday at 08:00 resolves to
voice through the first declared range, at 09:00 to text through the
second, and the wrapping range `"19:00-07:00"` matches both 23:00 and
02:00. -/
theorem schedulePreference_resolution_witness :
    (¬((1 : Nat) = 0 ∨ (1 : Nat) = 6) ∧
      getSchedulePreference DEFAULT_CONFIG.rules.schedule 1 480 =
        (((DEFAULT_CONFIG.rules.schedule.weekday.find? fun e =>
            rangeMatches e.1 480).map Prod.snd).getD IOMode.voice)) ∧
    getSchedulePreference DEFAULT_CONFIG.rules.schedule 1 480 = IOMode.voice ∧
    getSchedulePreference DEFAULT_CONFIG.rules.schedule 1 540 = IOMode.text ∧
    rangeMatches "19:00-07:00" 1380 = true ∧
    rangeMatches "19:00-07:00" 120 = true ∧
    ((0 : Nat) = 0 ∨ (0 : Nat) = 6) ∧
    getSchedulePreference DEFAULT_CONFIG.rules.schedule 0 540 =
      DEFAULT_CONFIG.rules.schedule.weekend :=
  ⟨⟨by decide,
      (schedulePreference_resolution DEFAULT_CONFIG.rules.schedule 1 480).2 (by decide)⟩,
    by decide, by decide, by decide, by decide, Or.inl rfl,
    (schedulePreference_resolution DEFAULT_CONFIG.rules.schedule 0 540).1 (Or.inl rfl)⟩

/-- The corrections field after one `recordCorrection` call, with the
length of the appended list normalized. -/
theorem recordCorrection_corrections (s : VoiceState) (ts : Int) (d h : Nat)
    (m : IOMode) :
    (recordCorrection s ts d h m).corrections =
      if s.corrections.length + 1 > 50 then
        (s.corrections ++ [Correction.mk ts d h m]).drop (s.corrections.length + 1 - 50)
      else s.corrections ++ [Correction.mk ts d h m] := by
  show (let cs := s.corrections ++ [Correction.mk ts d h m];
    if cs.length > 50 then cs.drop (cs.length - 50) else cs) = _
  simp [List.length_append]

/-- While the accumulated history stays within the cap, `recordCorrection`
is a plain append. -/
theorem applyCorrections_no_trunc (entries : List Correction) (s : VoiceState)
    (h : s.corrections.length + entries.length ≤ 50) :
    (applyCorrections entries s).corrections = s.corrections ++ entries := by
  induction entries generalizing s with
  | nil => simp [applyCorrections]
  | cons e rest ih =>
      have hstep :
          (recordCorrection s e.timestamp e.dayOfWeek e.hour e.correctedTo).corrections
            = s.corrections ++ [e] := by
        rw [recordCorrection_corrections]
        have hlen : ¬(s.corrections.length + 1 > 50) := by
          simp only [List.length_cons] at h
          omega
        rw [if_neg hlen]
      have htail :
          applyCorrections (e :: rest) s =
            applyCorrections rest
              (recordCorrection s e.timestamp e.dayOfWeek e.hour e.correctedTo) := by
        simp [applyCorrections]
      rw [htail, ih _ (by rw [hstep]; simp at h ⊢; omega), hstep, List.append_assoc]
      rfl

/-- Unfolding of `applyCorrections` at a final call peeled off the fold. -/
theorem applyCorrections_snoc (l : List Correction) (a : Correction) (s : VoiceState) :
    applyCorrections (l ++ [a]) s =
      recordCorrection (applyCorrections l s) a.timestamp a.dayOfWeek a.hour
        a.correctedTo := by
  unfold applyCorrections
  rw [List.foldl_append]
  rfl

/-- C8 (confirmed): `recordCorrection` appends the new timestamp/day/hour
entry and keeps the history bounded at 50 with the oldest evicted first —
from any state with at most 50 corrections the result has at most 50, and
51 calls starting from an empty history leave exactly the most recent 50
entries in insertion order. -/
theorem recordCorrection_bound (s : VoiceState) :
    (∀ (ts : Int) (d h : Nat) (m : IOMode), s.corrections.length ≤ 50 →
      (recordCorrection s ts d h m).corrections.length ≤ 50) ∧
    (∀ entries : List Correction, s.corrections = [] → entries.length = 51 →
      (applyCorrections entries s).corrections = entries.drop 1) := by
  constructor
  · intro ts d h m hle
    rw [recordCorrection_corrections]
    split
    · simp only [List.length_drop, List.length_append, List.length_cons,
        List.length_nil]
      omega
    · simp only [List.length_append, List.length_cons, List.length_nil]
      omega
  · intro entries hs hlen
    have hne : entries ≠ [] := by
      intro hnil
      rw [hnil] at hlen
      simp at hlen
    obtain ⟨l, a, hsplit⟩ : ∃ l a, entries = l ++ [a] :=
      ⟨entries.dropLast, entries.getLast hne,
        (List.dropLast_append_getLast hne).symm⟩
    subst hsplit
    have hl : l.length = 50 := by
      simp only [List.length_append, List.length_cons, List.length_nil] at hlen
      omega
    rw [applyCorrections_snoc, recordCorrection_corrections]
    have h1 : (applyCorrections l s).corrections = l := by
      have hfill := applyCorrections_no_trunc l s (by rw [hs]; simp [hl])
      rw [hs] at hfill
      simpa using hfill
    rw [h1, hl]
    have heta : Correction.mk a.timestamp a.dayOfWeek a.hour a.correctedTo = a := rfl
    rw [heta, if_pos (by omega : 50 + 1 > 50)]

/-- C8 witness: the bound holds at a concrete 50-entry state, and 51
identical calls from the empty default state keep exactly the last 50. -/
theorem recordCorrection_bound_witness :
    (stateFifty.corrections.length ≤ 50 ∧
      (recordCorrection stateFifty 7 2 11 IOMode.text).corrections.length ≤ 50) ∧
    (DEFAULT_STATE.corrections = [] ∧ corr51.length = 51 ∧
      (applyCorrections corr51 DEFAULT_STATE).corrections = corr51.drop 1) :=
  ⟨⟨by decide,
      (recordCorrection_bound stateFifty).1 7 2 11 IOMode.text (by decide)⟩,
    ⟨rfl, by decide,
      (recordCorrection_bound DEFAULT_STATE).2 corr51 rfl (by decide)⟩⟩

/-- C10 (confirmed): `setTemporaryMode` with a zero duration stores a null
expiry (JS falsiness of `0`), a missing duration stores a null expiry, and
only a strictly positive duration stores `now + durationMs`. -/
theorem setTemporaryMode_zero_duration (s : VoiceState) (mode : Mode) (now : Int) :
    (setTemporaryMode s mode now (some 0)).modeExpiresAt = none ∧
    (setTemporaryMode s mode now none).modeExpiresAt = none ∧
    (∀ d : Nat, 0 < d →
      (setTemporaryMode s mode now (some d)).modeExpiresAt = some (now + (d : Int))) ∧
    (setTemporaryMode s mode now (some 0)).currentMode = mode ∧
    (setTemporaryMode s mode now (some 0)).modeSetAt = some now := by
  refine ⟨rfl, rfl, ?_, rfl, rfl⟩
  intro d hd
  unfold setTemporaryMode
  simp [Nat.pos_iff_ne_zero.mp hd]

/-- C10 witness: a zero duration at a concrete state yields no expiry, a
1000 ms duration yields `now + 1000`. -/
theorem setTemporaryMode_zero_duration_witness :
    (setTemporaryMode DEFAULT_STATE Mode.voice 800 (some 0)).modeExpiresAt = none ∧
    ((0 : Nat) < 1000 ∧
      (setTemporaryMode DEFAULT_STATE Mode.voice 800 (some 1000)).modeExpiresAt
        = some 1800) :=
  ⟨(setTemporaryMode_zero_duration DEFAULT_STATE Mode.voice 800).1,
    by decide,
    by
      have := (setTemporaryMode_zero_duration DEFAULT_STATE Mode.voice 800).2.2.1
        1000 (by decide)
      simpa using this⟩

/-- C3 counterexample: a non-auto mode whose `modeExpiresAt` is the numeric
timestamp `0` — strictly in the past of `now = 1000` — is **not** reset:
the call returns the fixed temporary mode (voice), writes nothing, and does
not fall through to the later signals (which would say text, since the user
message carries the text keyword 开会). -/
theorem tempMode_zero_expiry_counterexample :
    stateZeroExpiry.currentMode = Mode.voice ∧
    stateZeroExpiry.modeExpiresAt = some 0 ∧
    (0 : Int) < clkMonday.now ∧
    mustUseText DEFAULT_CONFIG "好".toList = false ∧
    shouldSendAsVoice DEFAULT_CONFIG stateZeroExpiry clkMonday "好".toList
        (some "开会".toList) =
      { sendVoice := true, state := stateZeroExpiry, wroteState := false } ∧
    decideAfterMode DEFAULT_CONFIG stateZeroExpiry clkMonday (some "开会".toList)
      = false :=
  ⟨rfl, rfl, by decide, by decide, by decide, by decide⟩

/-- C3 (amended): with no force-text rule tripped and a non-auto mode, the
decision is fixed by `currentMode` whenever the expiry is null, zero (JS
falsiness), or not strictly before now, with no state write; the persisted
reset to auto and the fall-through to the later signals happen exactly when
`modeExpiresAt` is a nonzero timestamp strictly before now. -/
theorem tempMode_fixes_decision (cfg : SkillConfig) (state : VoiceState) (clk : Clock)
    (rt : List Char) (um : Option (List Char))
    (h1 : mustUseText cfg rt = false) (h2 : state.currentMode ≠ Mode.auto) :
    (modeExpired state clk.now = true ↔
      ∃ t, state.modeExpiresAt = some t ∧ t ≠ 0 ∧ t < clk.now) ∧
    (modeExpired state clk.now = false →
      shouldSendAsVoice cfg state clk rt um =
        { sendVoice := decide (state.currentMode = Mode.voice)
          state := state
          wroteState := false }) ∧
    (modeExpired state clk.now = true →
      shouldSendAsVoice cfg state clk rt um =
        { sendVoice := decideAfterMode cfg state clk um
          state := setTemporaryMode state Mode.auto clk.now none
          wroteState := true }) := by
  refine ⟨?_, ?_, ?_⟩
  · unfold modeExpired truthyNum
    cases hm : state.modeExpiresAt with
    | none => simp
    | some t =>
        simp only [Option.getD_some, Bool.and_eq_true, decide_eq_true_eq]
        constructor
        · rintro ⟨ha, hb⟩
          exact ⟨t, rfl, ha, by omega⟩
        · rintro ⟨u, hu, hne, hlt⟩
          cases hu
          exact ⟨hne, by omega⟩
  · intro hexp
    unfold shouldSendAsVoice
    simp [h1, h2, hexp]
  · intro hexp
    unfold shouldSendAsVoice
    simp [h1, h2, hexp]

/-- C3 witness: a live temporary voice mode (expiry 2000, now 1000) fixes
the decision to voice with no write. -/
theorem tempMode_fixes_decision_witness :
    (mustUseText DEFAULT_CONFIG "好".toList = false ∧
      stateLive.currentMode ≠ Mode.auto ∧
      modeExpired stateLive clkMonday.now = false) ∧
    shouldSendAsVoice DEFAULT_CONFIG stateLive clkMonday "好".toList none =
      { sendVoice := decide (stateLive.currentMode = Mode.voice)
        state := stateLive
        wroteState := false } :=
  ⟨⟨by decide, by decide, by decide⟩,
    (tempMode_fixes_decision DEFAULT_CONFIG stateLive clkMonday "好".toList none
      (by decide) (by decide)).2.1 (by decide)⟩

/-- C9 counterexample: an ordinary decision call in auto mode returns
without writing anything — the persisted state is untouched, so it is not
the case that every decision durably persists an updated record. -/
theorem decision_no_write_counterexample :
    (shouldSendAsVoice DEFAULT_CONFIG DEFAULT_STATE clkSunday "好".toList
        none).wroteState = false ∧
    (shouldSendAsVoice DEFAULT_CONFIG DEFAULT_STATE clkSunday "好".toList
        none).state = DEFAULT_STATE :=
  ⟨by decide, by decide⟩

/-- C9 (amended): `shouldSendAsVoice` writes the persisted state exactly
when it resets an expired (truthy and past) temporary mode; on every other
path it performs no write and the state on disk stays what was loaded. -/
theorem decision_write_iff (cfg : SkillConfig) (state : VoiceState) (clk : Clock)
    (rt : List Char) (um : Option (List Char)) :
    ((shouldSendAsVoice cfg state clk rt um).wroteState = true ↔
      (mustUseText cfg rt = false ∧ state.currentMode ≠ Mode.auto ∧
        modeExpired state clk.now = true)) ∧
    ((shouldSendAsVoice cfg state clk rt um).wroteState = false →
      (shouldSendAsVoice cfg state clk rt um).state = state) := by
  unfold shouldSendAsVoice
  by_cases h1 : mustUseText cfg rt = true
  · simp [h1]
  · by_cases h2 : state.currentMode = Mode.auto
    · simp [h1, h2]
    · by_cases h3 : modeExpired state clk.now = true
      · simp_all
      · simp_all

/-- C9 witness: the no-write characterization applied at a concrete
auto-mode call. -/
theorem decision_write_iff_witness :
    (shouldSendAsVoice DEFAULT_CONFIG DEFAULT_STATE clkMonday "好".toList
        none).wroteState = false ∧
    (shouldSendAsVoice DEFAULT_CONFIG DEFAULT_STATE clkMonday "好".toList
        none).state = DEFAULT_STATE :=
  ⟨by decide,
    (decision_write_iff DEFAULT_CONFIG DEFAULT_STATE clkMonday "好".toList none).2
      (by decide)⟩

/-- C2 counterexample: with no hard rule firing, a voice context keyword in
the user message fixes the decision to voice even though every other soft
signal favors text — the weighted sum of the specification is
`+0.6 − 0.3 − 0.2 − 0.15 − 0.25 = −0.3 ≤ 0` (scaled: −30), which would
demand text.  The code is a priority chain, not a weighted sum. -/
theorem weighted_scoring_counterexample :
    mustUseText cfgScoring "好".toList = false ∧
    stateScoring.currentMode = Mode.auto ∧
    (shouldSendAsVoice cfgScoring stateScoring clkScoring "好".toList
        (some "开车".toList)).sendVoice = true ∧
    specSoftScore cfgScoring stateScoring clkScoring (some "开车".toList) = -30 :=
  ⟨by decide, rfl, by decide, by decide⟩

/-- C2 (amended): when no hard rule fires (no force-text rule trips and
`currentMode` is auto) the decision is the priority chain of
`decideAfterMode`: context keywords decide alone if present; otherwise
mirroring the known last input mode decides if that rule is enabled;
otherwise a long silence decides by the configured preference; otherwise a
learned correction pattern decides; otherwise the schedule preference
decides.  The first applicable signal fixes the outcome by itself; no
weighted sum is computed. -/
theorem soft_signals_priority_chain (cfg : SkillConfig) (state : VoiceState)
    (clk : Clock) (rt : List Char) (um : Option (List Char))
    (h1 : mustUseText cfg rt = false) (h2 : state.currentMode = Mode.auto) :
    (shouldSendAsVoice cfg state clk rt um).sendVoice =
      decideAfterMode cfg state clk um ∧
    (shouldSendAsVoice cfg state clk rt um).state = state ∧
    (∀ m, detectedContext cfg um = some m →
      decideAfterMode cfg state clk um = decide (m = IOMode.voice)) ∧
    (detectedContext cfg um = none →
      (cfg.rules.adaptiveRules.followUserInputMode &&
          state.lastUserInputMode.isSome) = true →
      decideAfterMode cfg state clk um =
        decide (state.lastUserInputMode = some IOMode.voice)) ∧
    (detectedContext cfg um = none →
      (cfg.rules.adaptiveRules.followUserInputMode &&
          state.lastUserInputMode.isSome) = false →
      (truthyNum state.lastInteractionAt &&
          decide (clk.now - state.lastInteractionAt.getD 0 >
            cfg.rules.adaptiveRules.longIntervalThresholdMs)) = true →
      decideAfterMode cfg state clk um =
        decide (cfg.rules.adaptiveRules.longIntervalPreference = IOMode.voice)) ∧
    (detectedContext cfg um = none →
      (cfg.rules.adaptiveRules.followUserInputMode &&
          state.lastUserInputMode.isSome) = false →
      (truthyNum state.lastInteractionAt &&
          decide (clk.now - state.lastInteractionAt.getD 0 >
            cfg.rules.adaptiveRules.longIntervalThresholdMs)) = false →
      (∀ m, getLearnedPreference state clk.day clk.hour = some m →
        decideAfterMode cfg state clk um = decide (m = IOMode.voice)) ∧
      (getLearnedPreference state clk.day clk.hour = none →
        decideAfterMode cfg state clk um =
          decide (getSchedulePreference cfg.rules.schedule clk.tzDay clk.tzMinutes
            = IOMode.voice))) := by
  refine ⟨?_, ?_, ?_, ?_, ?_, ?_⟩
  · unfold shouldSendAsVoice
    simp [h1, h2]
  · unfold shouldSendAsVoice
    simp [h1, h2]
  · intro m hm
    unfold decideAfterMode
    rw [hm]
  · intro hctx hfollow
    unfold decideAfterMode
    rw [hctx, hfollow]
    simp
  · intro hctx hfollow hsilence
    unfold decideAfterMode
    rw [hctx, hfollow, hsilence]
    simp
  · intro hctx hfollow hsilence
    constructor
    · intro m hm
      unfold decideAfterMode
      rw [hctx, hfollow, hsilence, hm]
      simp
    · intro hm
      unfold decideAfterMode
      rw [hctx, hfollow, hsilence, hm]
      simp

/-- C2 witness: the chain applied at the default state on a weekday
morning — nothing before the schedule applies, so the schedule signal alone
decides. -/
theorem soft_signals_priority_chain_witness :
    (mustUseText DEFAULT_CONFIG "好".toList = false ∧
      DEFAULT_STATE.currentMode = Mode.auto ∧
      detectedContext DEFAULT_CONFIG none = none ∧
      getLearnedPreference DEFAULT_STATE clkMonday.day clkMonday.hour = none) ∧
    (shouldSendAsVoice DEFAULT_CONFIG DEFAULT_STATE clkMonday "好".toList
        none).sendVoice = decideAfterMode DEFAULT_CONFIG DEFAULT_STATE clkMonday none ∧
    decideAfterMode DEFAULT_CONFIG DEFAULT_STATE clkMonday none =
      decide (getSchedulePreference DEFAULT_CONFIG.rules.schedule clkMonday.tzDay
        clkMonday.tzMinutes = IOMode.voice) :=
  ⟨⟨by decide, rfl, by decide, by decide⟩,
    (soft_signals_priority_chain DEFAULT_CONFIG DEFAULT_STATE clkMonday "好".toList
      none (by decide) rfl).1,
    ((soft_signals_priority_chain DEFAULT_CONFIG DEFAULT_STATE clkMonday "好".toList
      none (by decide) rfl).2.2.2.2.2 (by decide) (by decide) (by decide)).2
      (by decide)⟩

/-- On the paths after the hard rules, the string `explainDecision` builds
is exactly the description of the branch that decides. -/
theorem explainAfterMode_describes (cfg : SkillConfig) (state : VoiceState)
    (clk : Clock) (um : Option (List Char)) :
    explainAfterMode cfg state clk um =
      describeReason cfg state clk um (reasonAfterMode cfg state clk um) := by
  unfold explainAfterMode reasonAfterMode
  cases hctx : detectedContext cfg um with
  | some m => simp [describeReason, hctx]
  | none =>
      by_cases hfollow : (cfg.rules.adaptiveRules.followUserInputMode &&
          state.lastUserInputMode.isSome) = true
      · simp [describeReason, hfollow]
      · rw [Bool.not_eq_true] at hfollow
        by_cases hsilence : (truthyNum state.lastInteractionAt &&
            decide (clk.now - state.lastInteractionAt.getD 0 >
              cfg.rules.adaptiveRules.longIntervalThresholdMs)) = true
        · simp [describeReason, hfollow, hsilence]
        · rw [Bool.not_eq_true] at hsilence
          cases hl : getLearnedPreference state clk.day clk.hour with
          | some m => simp [describeReason, hfollow, hsilence, hl]
          | none => simp [describeReason, hfollow, hsilence, hl]

/-- C4 counterexample: with an expired temporary mode and a user message
carrying the text keyword 开会, `explainDecision` reports only that the
temporary mode expired, while the decision of `shouldSendAsVoice` on the
same inputs is produced by the context-keyword signal (and the state reset
that `shouldSendAsVoice` performs is not performed by `explainDecision`,
which is pure).  No weighted-score trace exists on any path. -/
theorem explain_expired_counterexample :
    modeExpired stateExpired clkMonday.now = true ∧
    explainDecision DEFAULT_CONFIG stateExpired clkMonday "好".toList
        (some "开会".toList) = "临时模式已过期，恢复自动" ∧
    decideReason DEFAULT_CONFIG stateExpired clkMonday "好".toList
        (some "开会".toList) = Reason.context ∧
    (shouldSendAsVoice DEFAULT_CONFIG stateExpired clkMonday "好".toList
        (some "开会".toList)).sendVoice = false ∧
    (shouldSendAsVoice DEFAULT_CONFIG stateExpired clkMonday "好".toList
        (some "开会".toList)).wroteState = true ∧
    describeReason DEFAULT_CONFIG stateExpired clkMonday (some "开会".toList)
        Reason.context ≠ "临时模式已过期，恢复自动" :=
  ⟨by decide, by decide, by decide, by decide, by decide, by decide⟩

/-- C4 (amended): except on the expired-temporary-mode path,
`explainDecision` returns exactly the description of the branch that
produces the decision of `shouldSendAsVoice` on the same inputs; on the expired
path it reports only the expiry itself, resets nothing, and does not name
the signal that decides.  It reports the single firing rule as a string —
no weighted-score trace exists in the code. -/
theorem explain_matches_decision (cfg : SkillConfig) (state : VoiceState)
    (clk : Clock) (rt : List Char) (um : Option (List Char))
    (h : state.currentMode ≠ Mode.auto → modeExpired state clk.now = false) :
    explainDecision cfg state clk rt um =
      describeReason cfg state clk um (decideReason cfg state clk rt um) := by
  unfold explainDecision decideReason
  by_cases hm : mustUseText cfg rt = true
  · simp [hm, describeReason]
  · rw [Bool.not_eq_true] at hm
    by_cases ha : state.currentMode = Mode.auto
    · simp [hm, ha, explainAfterMode_describes]
    · have hexp := h ha
      simp [hm, ha, hexp, describeReason]

/-- C4 witness: at the default auto state on a weekday morning the
explanation names the schedule branch, the one that decides. -/
theorem explain_matches_decision_witness :
    (DEFAULT_STATE.currentMode ≠ Mode.auto →
      modeExpired DEFAULT_STATE clkMonday.now = false) ∧
    explainDecision DEFAULT_CONFIG DEFAULT_STATE clkMonday "好".toList none =
      describeReason DEFAULT_CONFIG DEFAULT_STATE clkMonday none
        (decideReason DEFAULT_CONFIG DEFAULT_STATE clkMonday "好".toList none) :=
  ⟨fun hcontra => absurd rfl hcontra,
    explain_matches_decision DEFAULT_CONFIG DEFAULT_STATE clkMonday "好".toList none
      (fun hcontra => absurd rfl hcontra)⟩

/-- C5 counterexample: a loaded document that sets only `models.zh.name`
drops the default `models.zh.lengthScale` (the spread replaces the nested
`zh` object wholesale), and a document that sets a single weekday range
replaces the whole default range map, dropping its five sibling ranges. -/
theorem shallow_merge_counterexample :
    docPartialModel.models = some { zh := some { name := some "my-model" } } ∧
    DEFAULT_CONFIG.models.zh.lengthScale = 65 ∧
    (loadConfig (ConfigSource.parsed docPartialModel)).zh.lengthScale = none ∧
    DEFAULT_CONFIG.rules.schedule.weekday.length = 6 ∧
    (loadConfig (ConfigSource.parsed docPartialWeekday)).weekday =
      some [("07:00-08:30", IOMode.text)] :=
  ⟨rfl, rfl, rfl, rfl, rfl⟩

/-- C5 (amended): `loadConfig` returns the defaults unmodified on a missing
or unreadable file; on success it spreads the loaded document over the
defaults one level deep inside each of the five sections — a leaf absent
from a loaded section inherits the default (as for `forceText.maxChars`),
but a present nested object (`models.zh`, `schedule.weekday`) replaces the
default nested object wholesale, holes included, so default sibling leaves
below that depth are not preserved. -/
theorem loadConfig_shallow_merge :
    loadConfig ConfigSource.missing = mergeConfig {} ∧
    loadConfig ConfigSource.unreadable = mergeConfig {} ∧
    (∀ j, loadConfig (ConfigSource.parsed j) = mergeConfig j) ∧
    (mergeConfig {}).zh = DEFAULT_CONFIG.models.zh.toPartial ∧
    (mergeConfig {}).weekday = some DEFAULT_CONFIG.rules.schedule.weekday ∧
    (mergeConfig {}).maxChars = some DEFAULT_CONFIG.rules.forceText.maxChars ∧
    (∀ jm : ModelsP, (mergeConfig { models := some jm }).zh =
      jm.zh.getD DEFAULT_CONFIG.models.zh.toPartial) ∧
    (∀ js : ScheduleConfigP,
      (mergeConfig { rules := some { schedule := some js } }).weekday =
        some (js.weekday.getD DEFAULT_CONFIG.rules.schedule.weekday)) ∧
    (∀ jf : ForceTextRulesP,
      (mergeConfig { rules := some { forceText := some jf } }).maxChars =
        some (jf.maxChars.getD DEFAULT_CONFIG.rules.forceText.maxChars) ∧
      (mergeConfig { rules := some { forceText := some jf } }).codeBlocks =
        some (jf.codeBlocks.getD DEFAULT_CONFIG.rules.forceText.codeBlocks)) :=
  ⟨rfl, rfl, fun _ => rfl, rfl, rfl, rfl, fun _ => rfl, fun _ => rfl,
    fun _ => ⟨rfl, rfl⟩⟩

/-- C6 counterexample: when the transcoder subprocess exits nonzero the
`execSync` throw propagates before `fs.unlinkSync(wavPath)` runs — the
failure is reported, but the intermediate WAV file is still present,
contrary to the claim that it is absent. -/
theorem wav_cleanup_counterexample :
    generateTTS { ttsOk := true, ffmpegOk := false, probeOk := true, durationMs := 700 }
      = (Except.error TTSStage.transcoder, { wav := true, opus := false }) := rfl

/-- C6 (amended): `generateTTS` deletes the intermediate WAV only on the
full success path; when the transcoder exits nonzero the synthesis failure
propagates to the caller, but the raw WAV file is left on disk. -/
theorem generateTTS_cleanup (env : TTSEnv) :
    (env.ttsOk = true → env.ffmpegOk = true → env.probeOk = true →
      generateTTS env = (Except.ok env.durationMs, { wav := false, opus := true })) ∧
    (env.ttsOk = true → env.ffmpegOk = false →
      generateTTS env = (Except.error TTSStage.transcoder,
        { wav := true, opus := false })) := by
  constructor
  · intro h1 h2 h3
    unfold generateTTS
    simp [h1, h2, h3]
  · intro h1 h2
    unfold generateTTS
    simp [h1, h2]

/-- C6 witness: the two characterized paths at concrete environments. -/
theorem generateTTS_cleanup_witness :
    generateTTS { ttsOk := true, ffmpegOk := true, probeOk := true, durationMs := 1200 }
      = (Except.ok 1200, { wav := false, opus := true }) ∧
    generateTTS { ttsOk := true, ffmpegOk := false, probeOk := true, durationMs := 1200 }
      = (Except.error TTSStage.transcoder, { wav := true, opus := false }) :=
  ⟨(generateTTS_cleanup
      { ttsOk := true, ffmpegOk := true, probeOk := true, durationMs := 1200 }).1
      rfl rfl rfl,
    (generateTTS_cleanup
      { ttsOk := true, ffmpegOk := false, probeOk := true, durationMs := 1200 }).2
      rfl rfl⟩

end Feishu
